import Mathlib

/-!
Verification of the EDGAR-edge ingestion pipeline.

This file gives a shallow embedding, in Lean 4, of the rate-limited
ingestion and deduplication pipeline of the EDGAR-edge repository:

* `src/ingest/handler.py` — the live poller (`lambda_handler`): feed
  entries are claimed in a DynamoDB dedup ledger via a conditional
  `put_item`, persisted to S3, and fanned out to an SQS queue in
  batches of 10;
* `src/ingest/async_backfill.py` — the asynchronous bulk backfill
  (`fetch`, `save_filing`, `one_quarter`): an existence probe
  (`head_object`) gates a rate-limited fetch and an S3 write, with
  items dispatched in bounded batches awaited together;
* `src/ingest/backfill.py` — the synchronous backfill
  (`download_filings`, `_save_filing`): quarterly pipe-delimited index
  parsing with a form-type allow-list.

External services (DynamoDB, S3, SQS, the network) are modelled as
oracles describing the outcome of each call; the Python control flow
is translated statement by statement.  Machine-level concerns (JSON
byte serialisation, HTTP transport) are abstracted to the structured
values the code actually manipulates.
-/

namespace EDGAR

/-! ## String helpers

Structural (kernel-computable) embeddings of the Python string
operations the pipeline uses: `str.split(sep)`, `str.startswith`,
`str.replace(old, new)` and `os.path.basename`. -/

/-- Worker for `pySplit`: scans `cs` left to right, cutting at each
non-overlapping occurrence of the (non-empty) separator `sep`; `acc`
holds the reversed current segment.  `fuel ≥ cs.length` makes the
recursion structural. -/
def splitAux (sep : List Char) : Nat → List Char → List Char → List (List Char)
  | _, acc, [] => [acc.reverse]
  | 0, acc, cs => [acc.reverse ++ cs]
  | fuel + 1, acc, c :: cs =>
    if sep.isPrefixOf (c :: cs) then
      acc.reverse :: splitAux sep fuel [] ((c :: cs).drop sep.length)
    else
      splitAux sep fuel (c :: acc) cs

/-- Python `s.split(sep)` for a non-empty separator. -/
def pySplit (s sep : String) : List String :=
  ((splitAux sep.toList s.toList.length [] s.toList).map
    (fun l => String.mk l))

/-- Python `s.startswith(pre)`. -/
def pyStartsWith (s pre : String) : Bool :=
  pre.toList.isPrefixOf s.toList

/-- Python `s.replace(old, "")` (removes every occurrence). -/
def pyRemove (s old : String) : String :=
  String.join (pySplit s old)

/-! ## Calendar arithmetic

The live handler computes `datetime.strptime(filed_at_str,
"%Y-%m-%dT%H:%M:%S%z").astimezone(timezone.utc)` and derives the S3
object key from the resulting UTC date.  We embed the proleptic
Gregorian calendar conversion (civil-from-days / days-from-civil). -/

/-- True if `y` is a leap year in the proleptic Gregorian calendar. -/
def isLeap (y : Nat) : Bool :=
  y % 4 = 0 && (y % 100 ≠ 0 || y % 400 = 0)

/-- Number of days in month `m` of year `y` (as validated by `datetime`). -/
def daysInMonth (y m : Nat) : Nat :=
  if m = 2 then (if isLeap y then 29 else 28)
  else if m = 4 ∨ m = 6 ∨ m = 9 ∨ m = 11 then 30
  else 31

/-- Days since the Unix epoch (1970-01-01) of civil date `(y, mo, da)`,
for year `y ≥ 1`.  Standard civil-calendar conversion. -/
def daysFromCivil (y mo da : Nat) : Int :=
  let yAdj : Nat := if mo ≤ 2 then y - 1 else y
  let era : Nat := yAdj / 400
  let yoe : Nat := yAdj % 400
  let mp : Nat := (mo + 9) % 12
  let doy : Nat := (153 * mp + 2) / 5 + da - 1
  let doe : Nat := yoe * 365 + yoe / 4 - yoe / 100 + doy
  (era * 146097 + doe : Int) - 719468

/-- Civil date `(year, month, day)` of day number `z` (days since the
Unix epoch).  Inverse of `daysFromCivil` on valid dates. -/
def civilFromDays (z : Int) : Nat × Nat × Nat :=
  let z' : Int := z + 719468
  let era : Int := Int.fdiv z' 146097
  let doe : Nat := (z' - era * 146097).toNat
  let yoe : Nat := (doe - doe / 1460 + doe / 36524 - doe / 146096) / 365
  let doy : Nat := doe - (365 * yoe + yoe / 4 - yoe / 100)
  let mp : Nat := (5 * doy + 2) / 153
  let da : Nat := doy - (153 * mp + 2) / 5 + 1
  let mo : Nat := if mp < 10 then mp + 3 else mp - 9
  let y : Int := era * 400 + (yoe : Int) + (if mo ≤ 2 then 1 else 0)
  (y.toNat, mo, da)

/-- A timezone-normalised timestamp, the result of
`datetime.strptime(..., "%Y-%m-%dT%H:%M:%S%z").astimezone(timezone.utc)`. -/
structure UtcTime where
  year : Nat
  month : Nat
  day : Nat
  hour : Nat
  minute : Nat
  second : Nat
deriving DecidableEq, Repr

/-- Numeric value of a decimal digit character. -/
def digitVal (c : Char) : Nat := c.toNat - 48

/-- Reads a fixed run of characters as a decimal number, or `none` if a
character is not a digit. -/
def readDigits (cs : List Char) : Option Nat :=
  if cs.all Char.isDigit then
    some (cs.foldl (fun a c => a * 10 + digitVal c) 0)
  else none

/-- Embedding of `datetime.strptime(s, "%Y-%m-%dT%H:%M:%S%z")` followed by
`.astimezone(timezone.utc)` (handler.py line 79), on the canonical
`YYYY-MM-DDTHH:MM:SS±HH:MM` shape the feed uses (spec section 6).  Any
other shape, or an out-of-range field, yields `none`, modelling the
`ValueError` that `strptime` raises. -/
def parseFiledAt (s : String) : Option UtcTime :=
  match s.toList with
  | [y1, y2, y3, y4, '-', m1, m2, '-', d1, d2, 'T',
     h1, h2, ':', n1, n2, ':', s1, s2, sg, o1, o2, ':', p1, p2] =>
    match readDigits [y1, y2, y3, y4], readDigits [m1, m2], readDigits [d1, d2],
          readDigits [h1, h2], readDigits [n1, n2], readDigits [s1, s2],
          readDigits [o1, o2], readDigits [p1, p2] with
    | some y, some mo, some da, some hr, some mi, some se, some offH, some offM =>
      if (sg = '+' ∨ sg = '-') ∧ 1 ≤ y ∧ 1 ≤ mo ∧ mo ≤ 12 ∧ 1 ≤ da ∧
         da ≤ daysInMonth y mo ∧ hr ≤ 23 ∧ mi ≤ 59 ∧ se ≤ 59 ∧
         offH ≤ 23 ∧ offM ≤ 59 then
        let offMin : Int := (if sg = '+' then 1 else -1) * (offH * 60 + offM)
        let localMin : Int := daysFromCivil y mo da * 1440 + hr * 60 + mi
        let utcMin : Int := localMin - offMin
        let days : Int := Int.fdiv utcMin 1440
        let rem : Nat := (utcMin - days * 1440).toNat
        let c := civilFromDays days
        some ⟨c.1, c.2.1, c.2.2, rem / 60, rem % 60, se⟩
      else none
    | _, _, _, _, _, _, _, _ => none
  | _ => none

/-- Decimal rendering left-padded with zeros to width 2 (`%m`, `%d`). -/
def pad2 (n : Nat) : String :=
  if n < 10 then "0" ++ toString n else toString n

/-- Decimal rendering left-padded with zeros to width 4 (`%Y`). -/
def pad4 (n : Nat) : String :=
  if n < 10 then "000" ++ toString n
  else if n < 100 then "00" ++ toString n
  else if n < 1000 then "0" ++ toString n
  else toString n

/-- The S3 object key `f"raw/{filed_dt_utc:%Y/%m/%d}/{accession_no}.json"`
(handler.py line 80). -/
def objectKey (t : UtcTime) (acc : String) : String :=
  "raw/" ++ pad4 t.year ++ "/" ++ pad2 t.month ++ "/" ++ pad2 t.day ++
    "/" ++ acc ++ ".json"

/-! ## Live path: `lambda_handler` (src/ingest/handler.py)

State of the external services is carried explicitly; points where the
code consults the outside world (the clock, the success of an S3 put,
the SQS batch response) are an `Oracle`.  DynamoDB's conditional put
itself is deterministic: it succeeds exactly when no item with the given
`accession_no` exists, which is the semantics of
`ConditionExpression='attribute_not_exists(accession_no)'`. -/

/-- TTL used for dedup items: `7 * 24 * 60 * 60` (handler.py line 20). -/
def TTL_SECONDS : Nat := 7 * 24 * 60 * 60

/-- One feed entry as consumed by the handler: `e.id`, `e.updated`,
`e.link`. -/
structure Entry where
  id : String
  updated : String
  link : String
deriving DecidableEq, Repr

/-- An item of the DynamoDB dedup table (handler.py lines 53-59). -/
structure DedupeItem where
  accession_no : String
  processed_at : Nat
  ttl : Nat
deriving DecidableEq, Repr

/-- The JSON body put to S3 (handler.py lines 83-87), as the structured
value it serialises. -/
structure S3Object where
  accession_no : String
  filed_at : String
  link : String
deriving DecidableEq, Repr

/-- The JSON body of one SQS message (handler.py lines 101-106). -/
structure MsgBody where
  accession_no : String
  s3_bucket : String
  s3_key : String
  filed_at : String
deriving DecidableEq, Repr

/-- One prepared SQS batch entry (handler.py lines 107-112).  `Id` is the
per-entry batch id (a fresh `uuid4` in the code; modelled by the entry's
index, which is equally unique within a run). -/
structure SqsMessage where
  Id : String
  MessageBody : MsgBody
  MessageDeduplicationId : String
  MessageGroupId : String
deriving DecidableEq, Repr

/-- Outcome of one `SQS.send_message_batch` call: either the call raised,
or it returned with the listed entry `Id`s in its `Failed` field. -/
inductive SqsBatchResult where
  | sendRaised
  | sendOk (failedIds : List String)
deriving DecidableEq, Repr

/-- The handler's environment: the bucket name, the clock read
`int(time.time())` before entry `i`, whether the S3 put for entry `i`
succeeds, and the result of the `i`-th SQS batch submission. -/
structure Oracle where
  bucket : String
  timeAt : Nat → Nat
  s3PutOk : Nat → Bool
  sqsResp : Nat → SqsBatchResult

/-- Whether the dedup table holds an item keyed by `acc`
(`attribute_not_exists(accession_no)` fails exactly then). -/
def ledgerHas (L : List DedupeItem) (acc : String) : Bool :=
  L.any (fun it => it.accession_no == acc)

/-- `S3.put_object`: overwrite the value at `key` or append a new one. -/
def s3Put (store : List (String × S3Object)) (key : String) (obj : S3Object) :
    List (String × S3Object) :=
  if store.any (fun p => p.1 == key) then
    store.map (fun p => if p.1 == key then (key, obj) else p)
  else store ++ [(key, obj)]

/-- `accession_no = e.id.split("accession-number=")[-1]` (handler.py
line 45). -/
def accessionOf (eid : String) : String :=
  (pySplit eid "accession-number=").getLastD ""

/-- The evolving state of one handler invocation: external stores plus
the handler's counters and accumulators.  `putsLog` and `claimsLog`
record, in order, the S3 writes executed and the conditional-put calls
issued (with their grant/deny outcome); they are traces of calls the
code makes, kept so the theorems can count them. -/
structure CycleState where
  ledger : List DedupeItem
  s3 : List (String × S3Object)
  processed_count : Nat
  skipped_count : Nat
  s3_put_count : Nat
  sqs_prepared_count : Nat
  messages : List SqsMessage
  putsLog : List (String × S3Object)
  claimsLog : List (String × Bool)
deriving DecidableEq, Repr

/-- Initial state of a cycle: the persistent stores as the run finds
them, all counters and accumulators empty. -/
def initState (L0 : List DedupeItem) (S0 : List (String × S3Object)) :
    CycleState :=
  ⟨L0, S0, 0, 0, 0, 0, [], [], []⟩

/-- State after a denied claim (`ConditionalCheckFailedException`,
handler.py lines 64-69): the entry is counted processed, counted
skipped, and everything downstream is skipped (`continue`). -/
def deniedResult (st : CycleState) (acc : String) : CycleState :=
  { st with processed_count := st.processed_count + 1,
            skipped_count := st.skipped_count + 1,
            claimsLog := st.claimsLog ++ [(acc, false)] }

/-- State after a granted claim whose later per-item step raised
(`strptime` or `S3.put_object`), the exception being caught by the
outer per-entry `except` (handler.py lines 115-119): the ledger keeps
the inserted item, nothing was stored or prepared. -/
def grantedFailedResult (st : CycleState) (acc : String) (now : Nat) :
    CycleState :=
  { st with processed_count := st.processed_count + 1,
            ledger := st.ledger ++ [⟨acc, now, now + TTL_SECONDS⟩],
            claimsLog := st.claimsLog ++ [(acc, true)] }

/-- State after a fully successful entry: claim granted, object stored,
message prepared. -/
def grantedStoredResult (st : CycleState) (acc : String) (now : Nat)
    (key : String) (obj : S3Object) (msg : SqsMessage) : CycleState :=
  { st with processed_count := st.processed_count + 1,
            ledger := st.ledger ++ [⟨acc, now, now + TTL_SECONDS⟩],
            claimsLog := st.claimsLog ++ [(acc, true)],
            s3 := s3Put st.s3 key obj,
            s3_put_count := st.s3_put_count + 1,
            putsLog := st.putsLog ++ [(key, obj)],
            messages := st.messages ++ [msg],
            sqs_prepared_count := st.sqs_prepared_count + 1 }

/-- The body of the `for e in feed.entries` loop (handler.py lines
41-119) for the entry at index `i`.  Control flow is translated
branch by branch:

* a `ConditionalCheckFailedException` (the item exists) increments
  `skipped_count` and `continue`s;
* on a granted claim the item is inserted, then `strptime` may raise
  (`parseFiledAt _ = none`), caught by the outer `except`, leaving the
  ledger entry behind;
* then `S3.put_object` may raise (`s3PutOk i = false`), again caught by
  the outer `except` after the ledger insert;
* only after a successful put is the SQS message appended. -/
def processEntry (o : Oracle) (i : Nat) (st : CycleState) (e : Entry) :
    CycleState :=
  let acc := accessionOf e.id
  if ledgerHas st.ledger acc then
    deniedResult st acc
  else
    match parseFiledAt e.updated with
    | none => grantedFailedResult st acc (o.timeAt i)
    | some dt =>
      if o.s3PutOk i then
        grantedStoredResult st acc (o.timeAt i) (objectKey dt acc)
          ⟨acc, e.updated, e.link⟩
          ⟨toString i, ⟨acc, o.bucket, (objectKey dt acc), e.updated⟩, acc,
           "filings"⟩
      else grantedFailedResult st acc (o.timeAt i)

/-- Folds `processEntry` over the feed, numbering entries from `i`. -/
def runEntries (o : Oracle) : Nat → CycleState → List Entry → CycleState
  | _, st, [] => st
  | i, st, e :: es => runEntries o (i + 1) (processEntry o i st e) es

/-! ### The SQS send phase (handler.py lines 121-139) -/

/-- Fuel-indexed chunking; `chunkGo size l.length l` splits `l` into
consecutive runs of `size`, mirroring `msgs[i:i+10]` slicing. -/
def chunkGo (size : Nat) : Nat → List α → List (List α)
  | _, [] => []
  | 0, l => [l]
  | fuel + 1, x :: xs => (x :: xs).take size :: chunkGo size fuel ((x :: xs).drop size)

/-- The batches submitted by `for i in range(0, len(sqs_messages), 10)`. -/
def batchesOf (size : Nat) (l : List α) : List (List α) :=
  chunkGo size l.length l

/-- Result of the send loop: the batches handed to `send_message_batch`,
the final `sqs_sent_count`, and for each submission whose response
carried a non-empty `Failed` list, that list of failed entry `Id`s
(the per-entry failure log of handler.py lines 133-136). -/
structure SendResult where
  submissions : List (List SqsMessage)
  sqs_sent_count : Nat
  reports : List (Nat × List String)
deriving DecidableEq, Repr

/-- The send loop over the chunked batches, `i` being the submission
index.  A raised call leaves the tally alone (handler.py lines
137-139); a returned call adds the whole batch length to
`sqs_sent_count` (line 132) whether or not `Failed` is empty, and a
non-empty `Failed` list is surfaced for that submission (lines
133-136). -/
def sendLoop (o : Oracle) : Nat → List (List SqsMessage) →
    Nat × List (Nat × List String)
  | _, [] => (0, [])
  | i, b :: bs =>
    let r := sendLoop o (i + 1) bs
    match o.sqsResp i with
    | .sendRaised => r
    | .sendOk failedIds =>
      (b.length + r.1,
       (if failedIds.isEmpty then [] else [(i, failedIds)]) ++ r.2)

/-- The whole send phase. -/
def sendBatches (o : Oracle) (msgs : List SqsMessage) : SendResult :=
  let bs := batchesOf 10 msgs
  let r := sendLoop o 0 bs
  ⟨bs, r.1, r.2⟩

/-- Number of prepared events the queue actually accepted, summed over
the chunked batches from submission index `i` on: for a submission
that returned, the entries of its batch not named in the response's
`Failed` list; every entry of a raised submission counts zero. -/
def acceptedLoop (o : Oracle) : Nat → List (List SqsMessage) → Nat
  | _, [] => 0
  | i, b :: bs =>
    (match o.sqsResp i with
     | .sendRaised => 0
     | .sendOk failedIds =>
       (b.filter (fun m => !failedIds.contains m.Id)).length) +
      acceptedLoop o (i + 1) bs

/-- Total number of prepared events the queue actually accepted. -/
def acceptedTotal (o : Oracle) (msgs : List SqsMessage) : Nat :=
  acceptedLoop o 0 (batchesOf 10 msgs)

/-- The summary dict returned by `lambda_handler` (handler.py lines
142-150). -/
structure Summary where
  feed_entries : Nat
  processed : Nat
  skipped_duplicates : Nat
  s3_puts : Nat
  sqs_prepared : Nat
  sqs_sent : Nat
deriving DecidableEq, Repr

/-- Everything one invocation produces: the summary, the final state,
and the send-phase result. -/
structure CycleOutput where
  summary : Summary
  state : CycleState
  send : SendResult
deriving Repr

/-- The full `lambda_handler` body on a parsed feed: the entry loop,
then the batched SQS send, then the summary. -/
def lambda_handler (o : Oracle) (L0 : List DedupeItem)
    (S0 : List (String × S3Object)) (feed : List Entry) : CycleOutput :=
  let st := runEntries o 0 (initState L0 S0) feed
  let sr := sendBatches o st.messages
  ⟨⟨feed.length, st.processed_count, st.skipped_count, st.s3_put_count,
    st.sqs_prepared_count, sr.sqs_sent_count⟩, st, sr⟩

/-! ### Counting helpers for the dedup invariant -/

/-- Number of executed S3 writes whose record is for identifier `x`. -/
def putsFor (st : CycleState) (x : String) : Nat :=
  (st.putsLog.filter (fun p => p.2.accession_no == x)).length

/-- Number of prepared outbound events for identifier `x`. -/
def msgsFor (st : CycleState) (x : String) : Nat :=
  (st.messages.filter (fun m => m.MessageBody.accession_no == x)).length

/-- Number of ledger claims issued for identifier `x`. -/
def claimsFor (st : CycleState) (x : String) : Nat :=
  (st.claimsLog.filter (fun c => c.1 == x)).length

/-- Number of granted ledger claims for identifier `x`. -/
def grantedFor (st : CycleState) (x : String) : Nat :=
  (st.claimsLog.filter (fun c => c.1 == x && c.2)).length

/-! ## Bulk backfill: `save_filing` / `one_quarter`
(src/ingest/async_backfill.py) -/

/-- Outcome of the `s3.head_object` existence probe for a key: the call
returned (the object exists), raised a `ClientError` with code `"404"`
(the object is absent), or raised anything else. -/
inductive HeadResult where
  | found
  | notFound404
  | otherError (code : String)
deriving DecidableEq, Repr

/-- The persisted record (async_backfill.py lines 89-94 and backfill.py
lines 123-128 build the same shape). -/
structure FilingRecord where
  accession : String
  fetched_at : String
  url : String
  content : String
deriving DecidableEq, Repr

/-- How one `save_filing` call ended, matching its logged outcomes:
already-present skip, successful upload, fetch failure, write
failure. -/
inductive SaveOutcome where
  | skippedExisting
  | uploaded
  | fetchFailed
  | uploadFailed
deriving DecidableEq, Repr

/-- The externally visible effects of one completed `save_filing` call:
content fetches issued, objects written, and the outcome. -/
structure SaveEffects where
  fetches : List String
  puts : List (String × FilingRecord)
  outcome : SaveOutcome
deriving DecidableEq, Repr

/-- The backfill's environment: the probe result per key, the fetch
result per url (`Except.error` standing for a raised timeout, client or
HTTP-status error), whether the write at a key succeeds, and the
`datetime.utcnow()` string. -/
structure BackfillOracle where
  headResp : String → HeadResult
  fetchResp : String → Except String String
  putOk : String → Bool
  fetchedAtStr : String

/-- The deterministic storage key `f"raw/{year}/{accession}.json"`
(async_backfill.py lines 69 and 97). -/
def backfillKey (year : Nat) (accession : String) : String :=
  "raw/" ++ toString year ++ "/" ++ accession ++ ".json"

/-- Embedding of `save_filing` (async_backfill.py lines 60-122).  An
`Except.error` result is an exception escaping the coroutine: the only
such path is a probe `ClientError` whose code is not `"404"`, re-raised
by line 81.  Fetch errors (lines 85-87) and write errors (lines
104-107, 120-122) are caught inside the function and turned into a
logged return. -/
def save_filing (o : BackfillOracle) (year : Nat) (accession url : String)
    (mode : String) : Except String SaveEffects :=
  let key := backfillKey year accession
  let fetchThenWrite : String → Except String SaveEffects := fun wkey =>
    match o.fetchResp url with
    | .error _ => .ok ⟨[url], [], .fetchFailed⟩
    | .ok content =>
      if o.putOk wkey then
        .ok ⟨[url], [(wkey, ⟨accession, o.fetchedAtStr, url, content⟩)], .uploaded⟩
      else
        .ok ⟨[url], [], .uploadFailed⟩
  if mode == "s3" then
    match o.headResp key with
    | .found => .ok ⟨[], [], .skippedExisting⟩
    | .otherError code => .error code
    | .notFound404 => fetchThenWrite key
  else
    fetchThenWrite ("data/raw/" ++ toString year ++ "/" ++ accession ++ ".json")

/-- The destination the synchronous backfill writes to:
`data/raw/{year}/{accession}.json` in local mode (backfill.py lines
131-136), the deterministic bucket key `raw/{year}/{accession}.json`
in s3 mode (lines 138-143). -/
def syncSavePath (year : Nat) (accession mode : String) : String :=
  if mode == "local" then
    "data/raw/" ++ toString year ++ "/" ++ accession ++ ".json"
  else
    backfillKey year accession

/-- Embedding of the synchronous backfill's `_save_filing` (backfill.py
lines 109-144).  There is no existence probe in either mode: the
content fetch is issued first and unconditionally (line 117); a fetch
error is caught and returns with no write (lines 119-121); otherwise
the record is written unconditionally to the local path or the bucket
key (lines 131-143).  Nothing guards the write, so a write error
(`Except.error`) propagates out of the function. -/
def sync_save_filing (o : BackfillOracle) (year : Nat)
    (accession url : String) (mode : String) : Except String SaveEffects :=
  match o.fetchResp url with
  | .error _ => .ok ⟨[url], [], .fetchFailed⟩
  | .ok content =>
    if o.putOk (syncSavePath year accession mode) then
      .ok ⟨[url], [(syncSavePath year accession mode,
        ⟨accession, o.fetchedAtStr, url, content⟩)], .uploaded⟩
    else
      .error "write error"

/-- A candidate filing as scheduled by `one_quarter`: the accession and
the url derived from an index row. -/
structure FilingTask where
  accession : String
  url : String
deriving DecidableEq, Repr

/-- Aggregate trace of processing one quarter's filing tasks. -/
structure QuarterTrace where
  outcomes : List (String × SaveOutcome)
  fetches : List String
  puts : List (String × FilingRecord)
  raised : Option String
deriving DecidableEq, Repr

/-- Runs every task of one gathered batch.  `asyncio.gather` starts all
coroutines of the batch; a raising member contributes its exception
(the first one is what `gather` propagates) while its siblings still
run to completion, so all completed outcomes and effects are kept. -/
def runGatheredBatch (o : BackfillOracle) (year : Nat) (mode : String)
    (acc : QuarterTrace) (batch : List FilingTask) : QuarterTrace :=
  batch.foldl (fun t d =>
    match save_filing o year d.accession d.url mode with
    | .error c =>
      { t with raised := match t.raised with
                         | some c0 => some c0
                         | none => some c }
    | .ok eff =>
      { t with outcomes := t.outcomes ++ [(d.accession, eff.outcome)],
               fetches := t.fetches ++ eff.fetches,
               puts := t.puts ++ eff.puts }) acc

/-- Drives the gathered batches of one quarter in order
(async_backfill.py lines 167-181).  An exception propagating out of a
`gather` is caught by the quarter-level `except` (lines 188-193), so no
later batch is started. -/
def runQuarterBatches (o : BackfillOracle) (year : Nat) (mode : String) :
    List (List FilingTask) → QuarterTrace → QuarterTrace
  | [], acc => acc
  | b :: bs, acc =>
    let acc' := runGatheredBatch o year mode acc b
    match acc'.raised with
    | some _ => acc'
    | none => runQuarterBatches o year mode bs acc'

/-- Processing of one quarter's task list in bounded batches, from an
empty trace. -/
def processQuarter (o : BackfillOracle) (year : Nat) (mode : String)
    (batchSize : Nat) (tasks : List FilingTask) : QuarterTrace :=
  runQuarterBatches o year mode (batchesOf batchSize tasks) ⟨[], [], [], none⟩

/-! ## Index parsing (backfill.py lines 86-103, async_backfill.py lines
149-166) -/

/-- A filing descriptor produced from one index row. -/
structure FilingDescriptor where
  accession : String
  form : String
  url : String
deriving DecidableEq, Repr

/-- `os.path.basename`: the part after the last `/`. -/
def basename (p : String) : String :=
  (pySplit p "/").getLastD p

/-- The descriptor built from the `filename` column:
`accession = os.path.basename(filename).replace(".txt", "")`,
`filing_url = "https://www.sec.gov/Archives/" + filename`. -/
def descriptorOf (form filename : String) : FilingDescriptor :=
  ⟨pyRemove (basename filename) ".txt", form,
   "https://www.sec.gov/Archives/" ++ filename⟩

/-- Processing of the data rows after the header.  Mirrors the loop of
`download_filings` (backfill.py lines 92-103): split on `|`; fewer than
5 columns means `continue`; then the tuple unpacking
`cik, comp, form, date_str, filename = parts` raises a `ValueError`
when there are more than 5 columns (`Except.error`), which nothing in
the function catches; 5 columns pass through the `8-K`/`10-K`
allow-list.  The same split, column check, unpacking and allow-list
appear in async_backfill.py lines 156-161. -/
def parseRows : List String → List FilingDescriptor × Option String
  | [] => ([], none)
  | line :: rest =>
    let parts := pySplit line "|"
    if parts.length < 5 then parseRows rest
    else
      match parts with
      | [_cik, _comp, form, _date, filename] =>
        if form == "8-K" || form == "10-K" then
          let r := parseRows rest
          (descriptorOf form filename :: r.1, r.2)
        else parseRows rest
      | _ => ([], some "ValueError: too many values to unpack")

/-- Drops lines up to and including the header row (the first line
starting with the literal `CIK|`); `none` when there is no header. -/
def dropToHeader : List String → Option (List String)
  | [] => none
  | l :: rest => if pyStartsWith l "CIK|" then some rest else dropToHeader rest

/-- Parsing a whole index document given as its lines: a missing header
yields zero descriptors for the partition (backfill.py lines 86-90
`continue` with that quarter skipped); otherwise the data rows are
processed, with a possible raised unpack error as second component. -/
def parseIndex (lines : List String) : List FilingDescriptor × Option String :=
  match dropToHeader lines with
  | none => ([], none)
  | some rest => parseRows rest

/-! ## The rate-limited fetch (async_backfill.py lines 37-57) -/

/-- What the network returns for a `session.get`: a timeout, a transport
(`aiohttp.ClientError`) failure, or a status line with a body. -/
inductive NetResult where
  | timeout
  | clientError (msg : String)
  | status (code : Nat) (body : String)
deriving DecidableEq, Repr

/-- Events on the shared semaphore and the network, in the order `fetch`
performs them. -/
inductive FetchEvent where
  | acquire
  | request (url : String)
  | release
deriving DecidableEq, Repr

/-- What one `fetch` call produces: its result (an `Except.error` is a
re-raised exception), the semaphore permit count afterwards, and the
ordered trace of semaphore/network events. -/
structure FetchRun where
  result : Except String String
  permits : Nat
  events : List FetchEvent
deriving Repr

/-- Embedding of `fetch`: `async with SEM` takes one permit, the request
is issued while it is held, `resp.raise_for_status()` raises on a
status `≥ 400`, timeouts and client errors are re-raised, and the
`async with` block returns the permit on every exit path. -/
def fetch (permits : Nat) (net : String → NetResult) (url : String) : FetchRun :=
  let afterAcquire := permits - 1
  let result : Except String String :=
    match net url with
    | .timeout => .error "TimeoutError"
    | .clientError m => .error m
    | .status code body =>
      if code ≥ 400 then .error "ClientResponseError" else .ok body
  ⟨result, afterAcquire + 1, [.acquire, .request url, .release]⟩

/-! ## Concrete scenario inputs and invariant definitions -/

/-- Oracle for the C2 scenario: all external writes succeed, every SQS
submission is fully accepted, the clock reads `1000 + i` before entry
`i`. -/
def oracleC2 : Oracle :=
  ⟨"test-bucket", fun i => 1000 + i, fun _ => true, fun _ => .sendOk []⟩

/-- A feed of 4 entries in which entries 2 and 3 (indices 1 and 2) carry
the same accession number with different `updated` timestamps. -/
def feedC2 : List Entry :=
  [⟨"urn:tag:sec.gov,2008:accession-number=ACC1",
    "2025-04-01T06:00:00-04:00", "l1"⟩,
   ⟨"urn:tag:sec.gov,2008:accession-number=ACC2",
    "2025-04-02T06:00:00-04:00", "l2"⟩,
   ⟨"urn:tag:sec.gov,2008:accession-number=ACC2",
    "2025-04-03T06:00:00-04:00", "l3"⟩,
   ⟨"urn:tag:sec.gov,2008:accession-number=ACC4",
    "2025-04-04T06:00:00-04:00", "l4"⟩]

/-- The C8 index document: a header line and three data rows, the middle
one carrying the non-allow-listed form `424B3`. -/
def indexC8 : List String :=
  ["CIK|Company Name|Form Type|Date Filed|Filename",
   "A|x|10-K|2024-01-01|path1",
   "B|y|424B3|2024-01-02|path2",
   "C|z|8-K|2024-01-03|path3"]

/-- Oracle for the C5 scenario. -/
def oracleC5 : Oracle :=
  ⟨"b", fun _ => 0, fun _ => true, fun _ => .sendOk []⟩

/-- A one-entry feed with identifier `ACC-5`. -/
def feedC5 : List Entry :=
  [⟨"urn:tag:sec.gov,2008:accession-number=ACC-5",
    "2025-04-01T06:00:00+00:00", "l"⟩]

/-- A helper invariant: all prepared messages carry their filing's
identifier as `MessageDeduplicationId` and the constant group
`"filings"` as `MessageGroupId`. -/
def MsgTokensOk (l : List SqsMessage) : Prop :=
  ∀ m ∈ l, m.MessageDeduplicationId = m.MessageBody.accession_no ∧
    m.MessageGroupId = "filings"

/-- Oracle for the C4 counterexample: the single SQS submission returns
with its one entry (`Id` `"0"`) in the `Failed` list. -/
def oracleC4 : Oracle :=
  ⟨"b", fun _ => 0, fun _ => true, fun _ => .sendOk ["0"]⟩

/-- A one-entry feed that prepares exactly one message. -/
def feedC4 : List Entry :=
  [⟨"urn:tag:sec.gov,2008:accession-number=ACC-4",
    "2025-04-01T06:00:00+00:00", "l"⟩]

/-- The C7 index: a valid 10-K row, then a 6-column row, then a valid
8-K row. -/
def indexC7 : List String :=
  ["CIK|Company Name|Form Type|Date Filed|Filename",
   "A|x|10-K|2024-01-01|p1",
   "B|y|ex|tra|10-K|p2",
   "C|z|8-K|2024-01-03|p3"]

/-- Oracle for the C3 counterexample: the filing is already persisted —
every existence probe reports the object present — and fetches and
writes succeed. -/
def oracleC3 : BackfillOracle :=
  ⟨fun _ => .found, fun _ => .ok "body", fun _ => true, "ts"⟩

/-- Oracle for the C6 counterexample: the probe for item `A`'s key
raises a `ClientError` with code `"500"`; everything else succeeds. -/
def oracleC6 : BackfillOracle :=
  ⟨fun k => if k == backfillKey 2020 "A" then .otherError "500" else .found,
   fun _ => .ok "body", fun _ => true, "ts"⟩

/-- The C6 two-item partition. -/
def tasksC6 : List FilingTask := [⟨"A", "u1"⟩, ⟨"B", "u2"⟩]

/-- Oracle for the C10 witness: S3 puts succeed, so the failing step is
timestamp parsing. -/
def oracleC10 : Oracle :=
  ⟨"b", fun _ => 50, fun _ => true, fun _ => .sendOk []⟩

/-- An entry whose `updated` field does not parse. -/
def entryC10 : Entry :=
  ⟨"urn:tag:sec.gov,2008:accession-number=ACC-10", "not-a-timestamp", "l"⟩

/-- The per-identifier invariant of the entry loop.  `b` records whether
identifier `x` was in the ledger when the cycle started: counts of
stored records, prepared events and granted claims for `x` stay at most
one; they are all zero while `x` is absent from the ledger; grants
never exceed claims; `x` is in the ledger exactly when it started there
or a claim for it was granted; and, for a fresh `x`, any claim being
issued forces exactly one grant. -/
def Inv (b : Bool) (x : String) (st : CycleState) : Prop :=
  putsFor st x ≤ 1 ∧ msgsFor st x ≤ 1 ∧ grantedFor st x ≤ 1 ∧
  (ledgerHas st.ledger x = false →
    putsFor st x = 0 ∧ msgsFor st x = 0 ∧ grantedFor st x = 0) ∧
  grantedFor st x ≤ claimsFor st x ∧
  (ledgerHas st.ledger x = true ↔ (b = true ∨ grantedFor st x = 1)) ∧
  (b = false → 1 ≤ claimsFor st x → grantedFor st x = 1)

/-- Oracle for the C1 witness. -/
def oracleC1 : Oracle :=
  ⟨"b", fun i => 10 + i, fun _ => true, fun _ => .sendOk []⟩

/-- A feed announcing identifier `DUP` twice. -/
def feedC1 : List Entry :=
  [⟨"accession-number=DUP", "2025-05-01T00:00:00+00:00", "l1"⟩,
   ⟨"accession-number=DUP", "2025-05-02T00:00:00+00:00", "l2"⟩]

/-- An entry for the C1 witness's denial conjunct. -/
def entryC1 : Entry := ⟨"accession-number=DUP", "x", "l"⟩

/-! ## Theorems -/

/-! ### C2: live cycle over a feed with one duplicated identifier -/

/-- C2: on a 4-entry feed whose entries 2 and 3 share an identifier, with
every external write succeeding, the returned summary reports
processed=4, skipped_duplicates=1, s3_puts=3, sqs_sent(published)=3;
the DedupeEntry for the shared identifier is created from the clock
reading at the first occurrence (index 1), and the stored object for it
sits at the key derived from the first occurrence's `updated` field
(2025-04-02), while no object at the key derived from the second
occurrence's `updated` field (2025-04-03) exists. -/
theorem C2_live_cycle_duplicate_feed :
    (lambda_handler oracleC2 [] [] feedC2).summary =
      ⟨4, 4, 1, 3, 3, 3⟩ ∧
    (lambda_handler oracleC2 [] [] feedC2).state.ledger =
      [⟨"ACC1", 1000, 1000 + TTL_SECONDS⟩,
       ⟨"ACC2", 1001, 1001 + TTL_SECONDS⟩,
       ⟨"ACC4", 1003, 1003 + TTL_SECONDS⟩] ∧
    (parseFiledAt "2025-04-02T06:00:00-04:00").map
      (fun dt => objectKey dt "ACC2") = some "raw/2025/04/02/ACC2.json" ∧
    (lambda_handler oracleC2 [] [] feedC2).state.s3.map Prod.fst =
      ["raw/2025/04/01/ACC1.json", "raw/2025/04/02/ACC2.json",
       "raw/2025/04/04/ACC4.json"] ∧
    ((lambda_handler oracleC2 [] [] feedC2).state.s3.map Prod.fst).contains
      "raw/2025/04/03/ACC2.json" = false := by
  decide

/-! ### C8: allow-list filtering of index rows -/

/-- C8: the allow-list filter (8-K, 10-K) yields exactly the two
descriptors for rows A and C, dropping the 424B3 row, and raises no
error. -/
theorem C8_allow_list_filter :
    parseIndex indexC8 =
      ([⟨"path1", "10-K", "https://www.sec.gov/Archives/path1"⟩,
        ⟨"path3", "8-K", "https://www.sec.gov/Archives/path3"⟩], none) := by
  decide

/-! ### C5: message dedup and group tokens -/

/-- C5 fails as stated: the outbound message for identifier `ACC-5`
carries `ACC-5` as its `MessageDeduplicationId` but the constant string
`"filings"` — not the identifier — as its `MessageGroupId`, so the
identifier is not the logical grouping key. -/
theorem C5_counterexample_group_key :
    ((lambda_handler oracleC5 [] [] feedC5).state.messages.map
      (fun m => (m.MessageDeduplicationId, m.MessageGroupId))) =
      [("ACC-5", "filings")] ∧ "filings" ≠ "ACC-5" := by
  decide

/-- `processEntry` preserves `MsgTokensOk`. -/
theorem processEntry_msgTokens (o : Oracle) (i : Nat) (st : CycleState)
    (e : Entry) (h : MsgTokensOk st.messages) :
    MsgTokensOk (processEntry o i st e).messages := by
  intro m hm
  simp only [processEntry] at hm
  split at hm
  · exact h m hm
  · split at hm
    · exact h m hm
    · split at hm
      · simp only [grantedStoredResult, List.mem_append,
          List.mem_singleton] at hm
        rcases hm with hm | hm
        · exact h m hm
        · subst hm; exact ⟨rfl, rfl⟩
      · exact h m hm

/-- `runEntries` preserves `MsgTokensOk`. -/
theorem runEntries_msgTokens (o : Oracle) :
    ∀ (feed : List Entry) (i : Nat) (st : CycleState),
      MsgTokensOk st.messages →
      MsgTokensOk (runEntries o i st feed).messages := by
  intro feed
  induction feed with
  | nil => intro i st h; exact h
  | cons e es ih =>
    intro i st h
    exact ih (i + 1) (processEntry o i st e) (processEntry_msgTokens o i st e h)

/-- C5 amended: every outbound message carries the filing's identifier
as its content-deduplication key (`MessageDeduplicationId`) and the
fixed group `"filings"` — shared by all messages, not per-identifier —
as its `MessageGroupId`. -/
theorem C5_amended_message_tokens (o : Oracle) (L0 : List DedupeItem)
    (S0 : List (String × S3Object)) (feed : List Entry) :
    MsgTokensOk (lambda_handler o L0 S0 feed).state.messages := by
  exact runEntries_msgTokens o feed 0 (initState L0 S0) (by intro m hm; cases hm)

/-- Witness for C5 amended at a concrete input. -/
theorem C5_amended_message_tokens_witness :
    ((lambda_handler oracleC5 [] [] feedC5).state.messages.map
        (fun m => m.MessageDeduplicationId)) = ["ACC-5"] ∧
    ∀ m ∈ (lambda_handler oracleC5 [] [] feedC5).state.messages,
      m.MessageDeduplicationId = m.MessageBody.accession_no ∧
      m.MessageGroupId = "filings" := by
  exact ⟨by decide, C5_amended_message_tokens oracleC5 [] [] feedC5⟩

/-! ### Chunking lemmas for the SQS send phase -/

/-- Every chunk produced by `chunkGo` has at most `size` elements, for a
positive `size` and enough fuel. -/
theorem chunkGo_mem_length {α : Type} (size : Nat) (hs : 0 < size) :
    ∀ (fuel : Nat) (l b : List α), l.length ≤ fuel →
      b ∈ chunkGo size fuel l → b.length ≤ size := by
  intro fuel
  induction fuel with
  | zero =>
    intro l b hl hb
    match l, hl with
    | [], _ => cases hb
  | succ fuel ih =>
    intro l b hl hb
    match l with
    | [] => cases hb
    | x :: xs =>
      simp only [chunkGo, List.mem_cons] at hb
      rcases hb with hb | hb
      · subst hb
        exact List.length_take_le size (x :: xs)
      · refine ih _ b ?_ hb
        simp only [List.length_drop, List.length_cons] at *
        omega

/-- The number of chunks of size 10 is `(n + 9) / 10`. -/
theorem chunkGo_ten_length {α : Type} :
    ∀ (fuel : Nat) (l : List α), l.length ≤ fuel →
      (chunkGo 10 fuel l).length = (l.length + 9) / 10 := by
  intro fuel
  induction fuel with
  | zero =>
    intro l hl
    match l, hl with
    | [], _ => simp [chunkGo]
  | succ fuel ih =>
    intro l hl
    match l with
    | [] => simp [chunkGo]
    | x :: xs =>
      have hd : ((x :: xs).drop 10).length ≤ fuel := by
        simp only [List.length_drop, List.length_cons] at *
        omega
      simp only [chunkGo, List.length_cons, ih _ hd, List.length_drop]
      omega

/-- Concatenating the chunks gives back the original list. -/
theorem chunkGo_flatten {α : Type} (size : Nat) (hs : 0 < size) :
    ∀ (fuel : Nat) (l : List α), l.length ≤ fuel →
      (chunkGo size fuel l).flatten = l := by
  intro fuel
  induction fuel with
  | zero =>
    intro l hl
    match l, hl with
    | [], _ => simp [chunkGo]
  | succ fuel ih =>
    intro l hl
    match l with
    | [] => simp [chunkGo]
    | x :: xs =>
      have hd : ((x :: xs).drop size).length ≤ fuel := by
        simp only [List.length_drop, List.length_cons] at *
        omega
      simp only [chunkGo, List.flatten_cons, ih _ hd]
      exact List.take_append_drop size (x :: xs)

/-- Batch version: every submitted batch has at most `size` entries. -/
theorem batchesOf_mem_length {α : Type} (size : Nat) (hs : 0 < size)
    (l b : List α) (hb : b ∈ batchesOf size l) : b.length ≤ size :=
  chunkGo_mem_length size hs l.length l b le_rfl hb

/-- Batch version: chunking into tens yields `(n + 9) / 10` batches. -/
theorem batchesOf_ten_length {α : Type} (l : List α) :
    (batchesOf 10 l).length = (l.length + 9) / 10 :=
  chunkGo_ten_length l.length l le_rfl

/-- Batch version: the batches concatenate back to the list. -/
theorem batchesOf_flatten {α : Type} (size : Nat) (hs : 0 < size)
    (l : List α) : (batchesOf size l).flatten = l :=
  chunkGo_flatten size hs l.length l le_rfl

/-- The sent tally is bounded by the total size of the batches. -/
theorem sendLoop_fst_le (o : Oracle) :
    ∀ (bs : List (List SqsMessage)) (i : Nat),
      (sendLoop o i bs).1 ≤ (bs.map List.length).sum := by
  intro bs
  induction bs with
  | nil => intro i; exact le_rfl
  | cons b rest ih =>
    intro i
    simp only [sendLoop, List.map_cons, List.sum_cons]
    cases o.sqsResp i with
    | sendRaised => exact le_add_left (ih (i + 1))
    | sendOk failedIds => exact Nat.add_le_add_left (ih (i + 1)) _

/-- The accepted count never exceeds the sent tally. -/
theorem acceptedLoop_le_sendLoop (o : Oracle) :
    ∀ (bs : List (List SqsMessage)) (i : Nat),
      acceptedLoop o i bs ≤ (sendLoop o i bs).1 := by
  intro bs
  induction bs with
  | nil => intro i; exact le_rfl
  | cons b rest ih =>
    intro i
    simp only [acceptedLoop, sendLoop]
    cases o.sqsResp i with
    | sendRaised =>
      simp only [Nat.zero_add]
      exact ih (i + 1)
    | sendOk failedIds =>
      exact Nat.add_le_add (List.length_filter_le _ b) (ih (i + 1))

/-- Every surfaced report belongs to a submission that returned a
non-empty `Failed` list matching that report. -/
theorem sendLoop_reports (o : Oracle) :
    ∀ (bs : List (List SqsMessage)) (i : Nat)
      (p : Nat × List String), p ∈ (sendLoop o i bs).2 →
      o.sqsResp p.1 = .sendOk p.2 ∧ p.2 ≠ [] := by
  intro bs
  induction bs with
  | nil => intro i p hp; cases hp
  | cons b rest ih =>
    intro i p hp
    simp only [sendLoop] at hp
    cases hr : o.sqsResp i with
    | sendRaised => rw [hr] at hp; exact ih (i + 1) p hp
    | sendOk failedIds =>
      rw [hr] at hp
      simp only [List.mem_append] at hp
      rcases hp with hp | hp
      · cases failedIds with
        | nil => simp at hp
        | cons f fs =>
          simp only [List.isEmpty_cons, if_false, Bool.false_eq_true,
            List.mem_singleton] at hp
          subst hp
          exact ⟨hr, by simp⟩
      · exact ih (i + 1) p hp

/-! ### C4: publisher batching and the sent tally -/

/-- C4 fails as stated: when the sole submitted batch reports its single
entry as failed, the cycle's final `sqs_sent` tally is still 1 while
the queue accepted 0 events.  The failure is surfaced per-entry (the
report names entry `Id` `"0"`), but the tally counts merely prepared
events of returned batches, not accepted ones. -/
theorem C4_counterexample_sent_tally :
    (lambda_handler oracleC4 [] [] feedC4).summary.sqs_sent = 1 ∧
    acceptedTotal oracleC4
      (lambda_handler oracleC4 [] [] feedC4).state.messages = 0 ∧
    (lambda_handler oracleC4 [] [] feedC4).send.reports =
      [(0, ["0"])] := by
  decide

/-- C4 amended: prepared events are submitted in batches of at most 10
(23 events give exactly 3 submissions); partial batch failures are
surfaced per-entry, each report carrying the failed entry ids of its
own submission; and the cycle's final sent tally counts every entry of
each batch whose submission returned — including entries the queue
rejected — so it is at most the number prepared and at least the number
actually accepted, but not in general equal to the accepted count. -/
theorem C4_amended_publisher (o : Oracle) (msgs : List SqsMessage) :
    (∀ b ∈ (sendBatches o msgs).submissions, b.length ≤ 10) ∧
    (msgs.length = 23 → (sendBatches o msgs).submissions.length = 3) ∧
    (sendBatches o msgs).sqs_sent_count ≤ msgs.length ∧
    acceptedTotal o msgs ≤ (sendBatches o msgs).sqs_sent_count ∧
    (∀ p ∈ (sendBatches o msgs).reports,
      o.sqsResp p.1 = .sendOk p.2 ∧ p.2 ≠ []) := by
  refine ⟨?_, ?_, ?_, ?_, ?_⟩
  · intro b hb
    exact batchesOf_mem_length 10 (by omega) msgs b hb
  · intro h23
    show (batchesOf 10 msgs).length = 3
    rw [batchesOf_ten_length, h23]
  · have h1 := sendLoop_fst_le o (batchesOf 10 msgs) 0
    have h2 : ((batchesOf 10 msgs).map List.length).sum = msgs.length := by
      rw [← List.length_flatten, batchesOf_flatten 10 (by omega)]
    exact h2 ▸ h1
  · exact acceptedLoop_le_sendLoop o (batchesOf 10 msgs) 0
  · intro p hp
    exact sendLoop_reports o (batchesOf 10 msgs) 0 p hp

/-- Witness for C4 amended at a concrete input: 23 prepared messages
give 3 submissions, all of size at most 10. -/
theorem C4_amended_publisher_witness :
    (sendBatches oracleC4 ((List.range 23).map
       (fun i => ⟨toString i, ⟨"a", "b", "k", "t"⟩, "a", "filings"⟩))).submissions.length
      = 3 ∧
    ∀ b ∈ (sendBatches oracleC4 ((List.range 23).map
       (fun i => ⟨toString i, ⟨"a", "b", "k", "t"⟩, "a", "filings"⟩))).submissions,
      b.length ≤ 10 := by
  refine ⟨?_, ?_⟩
  · exact (C4_amended_publisher oracleC4 _).2.1 (by decide)
  · exact (C4_amended_publisher oracleC4 _).1

/-! ### C7: malformed index rows -/

/-- C7 fails as stated: a data row with six columns — a wrong column
count — is not skipped silently.  The tuple unpacking raises a
`ValueError`, and the well-formed 8-K row after it yields no
descriptor: the parse neither continues with the remaining rows nor
stays error-free. -/
theorem C7_counterexample_six_columns :
    parseIndex indexC7 =
      ([⟨"p1", "10-K", "https://www.sec.gov/Archives/p1"⟩],
       some "ValueError: too many values to unpack") := by
  decide

/-- C7 amended: a data row with fewer than 5 columns is skipped silently
and processing continues with the remaining rows; a data row with more
than 5 columns raises an unpack error, aborting the remaining rows of
the partition. -/
theorem C7_amended_row_column_count (line : String) (rest : List String) :
    ((pySplit line "|").length < 5 →
      parseRows (line :: rest) = parseRows rest) ∧
    (5 < (pySplit line "|").length →
      parseRows (line :: rest) =
        ([], some "ValueError: too many values to unpack")) := by
  constructor
  · intro h
    simp only [parseRows]
    rw [if_pos h]
  · intro h
    simp only [parseRows]
    rw [if_neg (by omega)]
    rcases hp : pySplit line "|" with _ | ⟨a, _ | ⟨b, _ | ⟨c, _ | ⟨d, _ | ⟨e, _ | ⟨f, tl⟩⟩⟩⟩⟩⟩ <;>
      simp_all

/-- Witness for C7 amended: a 2-column row is skipped; a 6-column row
raises. -/
theorem C7_amended_row_column_count_witness :
    (parseRows ["a|b", "A|x|10-K|2024-01-01|p1"] =
      parseRows ["A|x|10-K|2024-01-01|p1"]) ∧
    (parseRows ["a|b|c|d|e|f"] =
      ([], some "ValueError: too many values to unpack")) :=
  ⟨(C7_amended_row_column_count "a|b" ["A|x|10-K|2024-01-01|p1"]).1 (by decide),
   (C7_amended_row_column_count "a|b|c|d|e|f" []).2 (by decide)⟩

/-! ### C3: probe-before-fetch in the backfill -/

/-- C3 fails as stated for the synchronous backfill's `_save_filing`:
with the object already persisted at the deterministic key (the probe
oracle reports it present for every key), `_save_filing` in s3 mode
still issues the content fetch and writes a new record — it consults no
probe at all — so re-running that backfill over an already-ingested
partition fetches and writes every filing again. -/
theorem C3_counterexample_sync_no_probe :
    oracleC3.headResp (backfillKey 2020 "A") = .found ∧
    sync_save_filing oracleC3 2020 "A" "u" "s3" =
      .ok ⟨["u"], [(backfillKey 2020 "A", ⟨"A", "ts", "u", "body"⟩)],
        .uploaded⟩ := by
  exact ⟨rfl, rfl⟩

/-- When the probe finds the object, `save_filing` returns `skipped`
having issued no content fetch and no write. -/
theorem save_filing_found (o : BackfillOracle) (year : Nat)
    (accession url : String)
    (h : o.headResp (backfillKey year accession) = .found) :
    save_filing o year accession url "s3" =
      .ok ⟨[], [], .skippedExisting⟩ := by
  simp [save_filing, h]

/-- A batch in which every item's key probes as present only appends
skip outcomes: no fetch, no write, no exception. -/
theorem runGatheredBatch_all_found (o : BackfillOracle) (year : Nat) :
    ∀ (b : List FilingTask) (acc : QuarterTrace),
      (∀ t ∈ b, o.headResp (backfillKey year t.accession) = .found) →
      runGatheredBatch o year "s3" acc b =
        { acc with outcomes :=
            acc.outcomes ++ b.map (fun t => (t.accession, .skippedExisting)) } := by
  intro b
  induction b with
  | nil => intro acc _; simp [runGatheredBatch]
  | cons t ts ih =>
    intro acc h
    have hsave := save_filing_found o year t.accession t.url
      (h t (List.mem_cons_self t ts))
    have hstep : runGatheredBatch o year "s3" acc (t :: ts) =
        runGatheredBatch o year "s3"
          { acc with outcomes := acc.outcomes ++ [(t.accession, .skippedExisting)] }
          ts := by
      simp [runGatheredBatch, hsave]
    rw [hstep, ih _ (fun u hu => h u (List.mem_cons_of_mem t hu))]
    simp

/-- Quarter-level version: with every key present, the batched run skips
every item, in order, with no fetch, no write and no exception. -/
theorem runQuarterBatches_all_found (o : BackfillOracle) (year : Nat) :
    ∀ (bs : List (List FilingTask)) (acc : QuarterTrace),
      acc.raised = none →
      (∀ t ∈ bs.flatten, o.headResp (backfillKey year t.accession) = .found) →
      runQuarterBatches o year "s3" bs acc =
        { acc with outcomes := acc.outcomes ++
            bs.flatten.map (fun t => (t.accession, .skippedExisting)) } := by
  intro bs
  induction bs with
  | nil => intro acc _ _; simp [runQuarterBatches]
  | cons b rest ih =>
    intro acc hr h
    have hb : ∀ t ∈ b, o.headResp (backfillKey year t.accession) = .found :=
      fun t ht => h t
        (by simp only [List.flatten_cons, List.mem_append]; exact Or.inl ht)
    have hrest : ∀ t ∈ rest.flatten,
        o.headResp (backfillKey year t.accession) = .found := by
      intro t ht
      refine h t ?_
      simp only [List.flatten_cons, List.mem_append]
      exact Or.inr ht
    simp only [runQuarterBatches, runGatheredBatch_all_found o year b acc hb, hr]
    rw [ih _ rfl hrest]
    simp [List.flatten_cons, List.append_assoc]

/-- C3 amended: only the asynchronous S3-backed backfill
(`async_backfill.py save_filing`, mode `"s3"`) probes durable storage
at the deterministic key before fetching — a present object yields
`skipped` with no content fetch and no write, and a partition whose
filings are all already persisted is re-run with zero content fetches,
zero new records, and only skip outcomes.  The synchronous backfill's
`_save_filing` performs no probe in any mode: whatever the probe
oracle would answer (the statement never constrains `o.headResp`, so it
holds in particular when every object is already present), it issues
the content fetch and writes the record unconditionally. -/
theorem C3_probe_before_fetch (o : BackfillOracle) (year : Nat) :
    (∀ accession url,
      o.headResp (backfillKey year accession) = .found →
      save_filing o year accession url "s3" =
        .ok ⟨[], [], .skippedExisting⟩) ∧
    (∀ (batchSize : Nat) (tasks : List FilingTask), 0 < batchSize →
      (∀ t ∈ tasks, o.headResp (backfillKey year t.accession) = .found) →
      processQuarter o year "s3" batchSize tasks =
        ⟨tasks.map (fun t => (t.accession, .skippedExisting)), [], [], none⟩) ∧
    (∀ accession url mode content,
      o.fetchResp url = .ok content →
      o.putOk (syncSavePath year accession mode) = true →
      sync_save_filing o year accession url mode =
        .ok ⟨[url], [(syncSavePath year accession mode,
          ⟨accession, o.fetchedAtStr, url, content⟩)], .uploaded⟩) := by
  refine ⟨?_, ?_, ?_⟩
  · exact fun accession url h => save_filing_found o year accession url h
  · intro batchSize tasks hbs h
    have hflat : (batchesOf batchSize tasks).flatten = tasks :=
      batchesOf_flatten batchSize hbs tasks
    have := runQuarterBatches_all_found o year (batchesOf batchSize tasks)
      ⟨[], [], [], none⟩ rfl (by rw [hflat]; exact h)
    rw [processQuarter, this, hflat]
    rfl
  · intro accession url mode content hf hp
    simp [sync_save_filing, hf, hp]

/-- Witness for C3 amended at a concrete input: with every probe
reporting the object present, the async s3 path re-runs a two-item
partition with only skips, while the synchronous `_save_filing` still
fetches and writes. -/
theorem C3_probe_before_fetch_witness :
    processQuarter oracleC3 2020 "s3" 1 [⟨"A", "u1"⟩, ⟨"B", "u2"⟩] =
      ⟨[("A", .skippedExisting), ("B", .skippedExisting)], [], [], none⟩ ∧
    save_filing oracleC3 2020 "A" "u1" "s3" = .ok ⟨[], [], .skippedExisting⟩ ∧
    sync_save_filing oracleC3 2020 "A" "u1" "s3" =
      .ok ⟨["u1"], [(syncSavePath 2020 "A" "s3", ⟨"A", "ts", "u1", "body"⟩)],
        .uploaded⟩ := by
  refine ⟨?_, ?_, ?_⟩
  · exact (C3_probe_before_fetch oracleC3 2020).2.1 1 [⟨"A", "u1"⟩, ⟨"B", "u2"⟩]
      (by decide) (fun t _ => rfl)
  · exact (C3_probe_before_fetch oracleC3 2020).1 "A" "u1" rfl
  · exact (C3_probe_before_fetch oracleC3 2020).2.2 "A" "u1" "s3" "body" rfl rfl

/-! ### C6: per-item error isolation in the batch pipeline -/

/-- C6 fails as stated: an existence-probe error that is not a 404 is
not converted into a per-item outcome.  `save_filing` for item `A`
re-raises it (`Except.error`), the exception reaches the batch-await
boundary, and processing of the partition stops: item `B` is never
processed and no outcome is recorded for either item. -/
theorem C6_counterexample_probe_error :
    save_filing oracleC6 2020 "A" "u1" "s3" = .error "500" ∧
    processQuarter oracleC6 2020 "s3" 1 tasksC6 =
      ⟨[], [], [], some "500"⟩ := by
  constructor
  · rfl
  · decide

/-- Any probe answer other than a non-404 `ClientError` lets
`save_filing` finish with a per-item outcome, whatever the fetch and
write results are; in `local` mode there is no probe and it always
finishes. -/
theorem save_filing_no_raise (o : BackfillOracle) (year : Nat)
    (accession url mode : String)
    (h : ∀ c, o.headResp (backfillKey year accession) ≠ .otherError c) :
    ∃ eff, save_filing o year accession url mode = .ok eff := by
  by_cases hm : (mode == "s3") = true
  · cases hh : o.headResp (backfillKey year accession) with
    | found =>
      exact ⟨⟨[], [], .skippedExisting⟩, by simp [save_filing, hm, hh]⟩
    | notFound404 =>
      cases hf : o.fetchResp url with
      | error m =>
        exact ⟨⟨[url], [], .fetchFailed⟩, by simp [save_filing, hm, hh, hf]⟩
      | ok content =>
        by_cases hp : o.putOk (backfillKey year accession) = true
        · exact ⟨⟨[url], [(backfillKey year accession,
              ⟨accession, o.fetchedAtStr, url, content⟩)], .uploaded⟩,
            by simp [save_filing, hm, hh, hf, hp]⟩
        · exact ⟨⟨[url], [], .uploadFailed⟩,
            by simp [save_filing, hm, hh, hf, hp]⟩
    | otherError c => exact absurd hh (h c)
  · cases hf : o.fetchResp url with
    | error m =>
      exact ⟨⟨[url], [], .fetchFailed⟩, by simp [save_filing, hm, hf]⟩
    | ok content =>
      by_cases hp :
          o.putOk ("data/raw/" ++ toString year ++ "/" ++ accession ++ ".json")
            = true
      · exact ⟨⟨[url], [("data/raw/" ++ toString year ++ "/" ++ accession
            ++ ".json", ⟨accession, o.fetchedAtStr, url, content⟩)], .uploaded⟩,
          by simp [save_filing, hm, hf, hp]⟩
      · exact ⟨⟨[url], [], .uploadFailed⟩, by simp [save_filing, hm, hf, hp]⟩

/-- A batch all of whose saves finish resolves every member to an
outcome and raises nothing new. -/
theorem runGatheredBatch_no_raise (o : BackfillOracle) (year : Nat) :
    ∀ (b : List FilingTask) (acc : QuarterTrace),
      (∀ t ∈ b, ∃ eff,
        save_filing o year t.accession t.url "s3" = .ok eff) →
      (runGatheredBatch o year "s3" acc b).raised = acc.raised ∧
      (runGatheredBatch o year "s3" acc b).outcomes.length =
        acc.outcomes.length + b.length := by
  intro b
  induction b with
  | nil => intro acc _; exact ⟨rfl, by simp [runGatheredBatch]⟩
  | cons t ts ih =>
    intro acc h
    obtain ⟨eff, heff⟩ := h t (List.mem_cons_self t ts)
    have hstep : runGatheredBatch o year "s3" acc (t :: ts) =
        runGatheredBatch o year "s3"
          { acc with outcomes := acc.outcomes ++ [(t.accession, eff.outcome)],
                     fetches := acc.fetches ++ eff.fetches,
                     puts := acc.puts ++ eff.puts } ts := by
      simp [runGatheredBatch, heff]
    obtain ⟨h1, h2⟩ := ih
      { acc with outcomes := acc.outcomes ++ [(t.accession, eff.outcome)],
                 fetches := acc.fetches ++ eff.fetches,
                 puts := acc.puts ++ eff.puts }
      (fun u hu => h u (List.mem_cons_of_mem t hu))
    constructor
    · rw [hstep, h1]
    · rw [hstep, h2]
      simp
      omega

/-- Quarter-level version: when no save raises, every item of every
batch resolves to an outcome and the run is never aborted. -/
theorem runQuarterBatches_no_raise (o : BackfillOracle) (year : Nat) :
    ∀ (bs : List (List FilingTask)) (acc : QuarterTrace),
      acc.raised = none →
      (∀ t ∈ bs.flatten, ∃ eff,
        save_filing o year t.accession t.url "s3" = .ok eff) →
      (runQuarterBatches o year "s3" bs acc).raised = none ∧
      (runQuarterBatches o year "s3" bs acc).outcomes.length =
        acc.outcomes.length + bs.flatten.length := by
  intro bs
  induction bs with
  | nil => intro acc hr _; exact ⟨hr, by simp [runQuarterBatches]⟩
  | cons b rest ih =>
    intro acc hr h
    have hb : ∀ t ∈ b, ∃ eff,
        save_filing o year t.accession t.url "s3" = .ok eff :=
      fun t ht => h t
        (by simp only [List.flatten_cons, List.mem_append]; exact Or.inl ht)
    have hrest : ∀ t ∈ rest.flatten, ∃ eff,
        save_filing o year t.accession t.url "s3" = .ok eff :=
      fun t ht => h t
        (by simp only [List.flatten_cons, List.mem_append]; exact Or.inr ht)
    obtain ⟨g1, g2⟩ := runGatheredBatch_no_raise o year b acc hb
    have hr' : (runGatheredBatch o year "s3" acc b).raised = none := g1.trans hr
    obtain ⟨q1, q2⟩ := ih (runGatheredBatch o year "s3" acc b) hr' hrest
    have hun : runQuarterBatches o year "s3" (b :: rest) acc =
        runQuarterBatches o year "s3" rest (runGatheredBatch o year "s3" acc b) := by
      simp only [runQuarterBatches, hr']
    refine ⟨hun ▸ q1, ?_⟩
    rw [hun, q2, g2]
    simp only [List.flatten_cons, List.length_append]
    omega

/-- C6 amended: fetch errors and write errors are caught at the item
boundary and become per-item outcomes, but a non-404 existence-probe
error is re-raised out of the item; when no probe gives such an error,
no exception reaches the batch-await boundary and every item of every
batch resolves to an outcome. -/
theorem C6_amended_error_isolation (o : BackfillOracle) (year : Nat) :
    (∀ accession url,
      o.headResp (backfillKey year accession) = .notFound404 →
      ∀ m, o.fetchResp url = .error m →
      save_filing o year accession url "s3" = .ok ⟨[url], [], .fetchFailed⟩) ∧
    (∀ accession url content,
      o.headResp (backfillKey year accession) = .notFound404 →
      o.fetchResp url = .ok content →
      o.putOk (backfillKey year accession) = false →
      save_filing o year accession url "s3" = .ok ⟨[url], [], .uploadFailed⟩) ∧
    (∀ accession url mode,
      (∀ c, o.headResp (backfillKey year accession) ≠ .otherError c) →
      ∃ eff, save_filing o year accession url mode = .ok eff) ∧
    (∀ (batchSize : Nat) (tasks : List FilingTask), 0 < batchSize →
      (∀ t ∈ tasks, ∀ c,
        o.headResp (backfillKey year t.accession) ≠ .otherError c) →
      (processQuarter o year "s3" batchSize tasks).raised = none ∧
      (processQuarter o year "s3" batchSize tasks).outcomes.length =
        tasks.length) := by
  refine ⟨?_, ?_, ?_, ?_⟩
  · intro accession url hh m hf
    simp [save_filing, hh, hf]
  · intro accession url content hh hf hp
    simp [save_filing, hh, hf, hp]
  · exact fun accession url mode h => save_filing_no_raise o year accession url mode h
  · intro batchSize tasks hbs h
    have hflat : (batchesOf batchSize tasks).flatten = tasks :=
      batchesOf_flatten batchSize hbs tasks
    have hall : ∀ t ∈ (batchesOf batchSize tasks).flatten, ∃ eff,
        save_filing o year t.accession t.url "s3" = .ok eff := by
      rw [hflat]
      exact fun t ht =>
        save_filing_no_raise o year t.accession t.url "s3" (h t ht)
    obtain ⟨q1, q2⟩ := runQuarterBatches_no_raise o year
      (batchesOf batchSize tasks) ⟨[], [], [], none⟩ rfl hall
    rw [hflat] at q2
    exact ⟨q1, by simpa using q2⟩

/-- Witness for C6 amended at a concrete input: with all probes
present, a two-item partition in batches of one resolves both items
and raises nothing. -/
theorem C6_amended_error_isolation_witness :
    (processQuarter ⟨fun _ => .found, fun _ => .ok "body", fun _ => true, "ts"⟩
        2021 "s3" 1 [⟨"A", "u1"⟩, ⟨"B", "u2"⟩]).raised = none ∧
    (processQuarter ⟨fun _ => .found, fun _ => .ok "body", fun _ => true, "ts"⟩
        2021 "s3" 1 [⟨"A", "u1"⟩, ⟨"B", "u2"⟩]).outcomes.length = 2 := by
  exact (C6_amended_error_isolation _ 2021).2.2.2 1 [⟨"A", "u1"⟩, ⟨"B", "u2"⟩]
    (by decide) (fun t _ c hc => HeadResult.noConfusion hc)

/-! ### C9: the fetch semaphore is released on every path -/

/-- C9: `fetch` acquires the rate-limiting semaphore before issuing its
request and releases it unconditionally afterward: whatever the network
returns — timeout, transport error, error status or success — the event
trace is acquire, request, release, the permit count is restored, and
acquisitions equal releases, so no permit leaks. -/
theorem C9_fetch_releases_semaphore (permits : Nat)
    (net : String → NetResult) (url : String) (h : 0 < permits) :
    (fetch permits net url).permits = permits ∧
    (fetch permits net url).events = [.acquire, .request url, .release] ∧
    ((fetch permits net url).events.count .acquire =
      (fetch permits net url).events.count .release) := by
  refine ⟨?_, rfl, ?_⟩
  · show permits - 1 + 1 = permits
    omega
  · rfl

/-- Witness for C9 on a concrete timeout outcome. -/
theorem C9_fetch_releases_semaphore_witness :
    (fetch 10 (fun _ => .timeout) "u").permits = 10 ∧
    (fetch 10 (fun _ => .timeout) "u").events =
      [.acquire, .request "u", .release] :=
  ⟨(C9_fetch_releases_semaphore 10 (fun _ => .timeout) "u" (by decide)).1,
   (C9_fetch_releases_semaphore 10 (fun _ => .timeout) "u" (by decide)).2.1⟩

/-! ### C10: a granted claim is not rolled back on later failure -/

/-- A denied claim changes nothing but the processed and skipped
counters (and the claims log): used by C1 and C10. -/
theorem processEntry_denied (o : Oracle) (j : Nat) (st : CycleState)
    (e : Entry) (h : ledgerHas st.ledger (accessionOf e.id) = true) :
    processEntry o j st e = deniedResult st (accessionOf e.id) := by
  simp [processEntry, h]

/-- Appending a dedup item for `acc` makes the ledger contain `acc`. -/
theorem ledgerHas_append_self (L : List DedupeItem) (acc : String)
    (now ttl : Nat) : ledgerHas (L ++ [⟨acc, now, ttl⟩]) acc = true := by
  simp [ledgerHas, List.any_append]

/-- C10: the ledger claim and the subsequent store are not atomic.  If
the conditional insert for a fresh identifier succeeds but timestamp
parsing or the S3 write then raises, the DedupeEntry stays in the
ledger while no record is stored and no event is prepared; processing
any later entry bearing the same identifier from the resulting state is
rejected as a duplicate (skip counted, nothing stored or published)
rather than retried. -/
theorem C10_no_rollback_on_failure (o : Oracle) (i : Nat)
    (st : CycleState) (e : Entry)
    (h1 : ledgerHas st.ledger (accessionOf e.id) = false)
    (h2 : parseFiledAt e.updated = none ∨ o.s3PutOk i = false) :
    ledgerHas (processEntry o i st e).ledger (accessionOf e.id) = true ∧
    (processEntry o i st e).putsLog = st.putsLog ∧
    (processEntry o i st e).messages = st.messages ∧
    (processEntry o i st e).s3 = st.s3 ∧
    (∀ (j : Nat) (e2 : Entry), accessionOf e2.id = accessionOf e.id →
      processEntry o j (processEntry o i st e) e2 =
        deniedResult (processEntry o i st e) (accessionOf e2.id)) := by
  have hfail : processEntry o i st e =
      grantedFailedResult st (accessionOf e.id) (o.timeAt i) := by
    rcases h2 with h2 | h2
    · simp [processEntry, h1, h2]
    · simp only [processEntry, h1, Bool.false_eq_true, if_false]
      cases hp : parseFiledAt e.updated with
      | none => rfl
      | some dt => simp [h2]
  refine ⟨?_, ?_, ?_, ?_, ?_⟩
  · rw [hfail]
    exact ledgerHas_append_self st.ledger (accessionOf e.id) (o.timeAt i)
      (o.timeAt i + TTL_SECONDS)
  · rw [hfail]; rfl
  · rw [hfail]; rfl
  · rw [hfail]; rfl
  · intro j e2 he2
    refine processEntry_denied o j (processEntry o i st e) e2 ?_
    rw [he2, hfail]
    exact ledgerHas_append_self st.ledger (accessionOf e.id) (o.timeAt i)
      (o.timeAt i + TTL_SECONDS)

/-- Witness for C10: the claim for `ACC-10` is granted, parsing fails,
the ledger keeps the entry, nothing is stored or prepared, and a
re-announcement is rejected as a duplicate. -/
theorem C10_no_rollback_on_failure_witness :
    ledgerHas (processEntry oracleC10 0 (initState [] []) entryC10).ledger
      "ACC-10" = true ∧
    (processEntry oracleC10 0 (initState [] []) entryC10).messages = [] ∧
    processEntry oracleC10 1
        (processEntry oracleC10 0 (initState [] []) entryC10) entryC10 =
      deniedResult (processEntry oracleC10 0 (initState [] []) entryC10)
        "ACC-10" := by
  have h := C10_no_rollback_on_failure oracleC10 0 (initState [] []) entryC10
    (by decide) (Or.inl (by decide))
  have hacc : accessionOf entryC10.id = "ACC-10" := by decide
  refine ⟨?_, ?_, ?_⟩
  · rw [← hacc]; exact h.1
  · exact h.2.2.1
  · have := h.2.2.2.2 1 entryC10 rfl
    rw [hacc] at this
    exact this

/-! ### C1: the dedup invariant of the live path

The per-identifier counts are tracked through the entry loop with an
invariant over `CycleState`, parametrised by whether the identifier was
already in the ledger when the cycle started. -/

theorem putsFor_deniedResult (st : CycleState) (acc x : String) :
    putsFor (deniedResult st acc) x = putsFor st x := rfl

theorem msgsFor_deniedResult (st : CycleState) (acc x : String) :
    msgsFor (deniedResult st acc) x = msgsFor st x := rfl

theorem grantedFor_deniedResult (st : CycleState) (acc x : String) :
    grantedFor (deniedResult st acc) x = grantedFor st x := by
  simp [grantedFor, deniedResult, List.filter_append]

theorem claimsFor_deniedResult (st : CycleState) (acc x : String) :
    claimsFor (deniedResult st acc) x =
      claimsFor st x + (if acc = x then 1 else 0) := by
  by_cases h : acc = x <;> simp [claimsFor, deniedResult, List.filter_append, h]

theorem ledgerHas_deniedResult (st : CycleState) (acc x : String) :
    ledgerHas (deniedResult st acc).ledger x = ledgerHas st.ledger x := rfl

theorem putsFor_grantedFailedResult (st : CycleState) (acc x : String)
    (now : Nat) : putsFor (grantedFailedResult st acc now) x = putsFor st x :=
  rfl

theorem msgsFor_grantedFailedResult (st : CycleState) (acc x : String)
    (now : Nat) : msgsFor (grantedFailedResult st acc now) x = msgsFor st x :=
  rfl

theorem grantedFor_grantedFailedResult (st : CycleState) (acc x : String)
    (now : Nat) : grantedFor (grantedFailedResult st acc now) x =
      grantedFor st x + (if acc = x then 1 else 0) := by
  by_cases h : acc = x <;>
    simp [grantedFor, grantedFailedResult, List.filter_append, h]

theorem claimsFor_grantedFailedResult (st : CycleState) (acc x : String)
    (now : Nat) : claimsFor (grantedFailedResult st acc now) x =
      claimsFor st x + (if acc = x then 1 else 0) := by
  by_cases h : acc = x <;>
    simp [claimsFor, grantedFailedResult, List.filter_append, h]

theorem ledgerHas_grantedFailedResult (st : CycleState) (acc x : String)
    (now : Nat) : ledgerHas (grantedFailedResult st acc now).ledger x =
      (ledgerHas st.ledger x || (acc == x)) := by
  simp [ledgerHas, grantedFailedResult, List.any_append]

theorem putsFor_grantedStoredResult (st : CycleState) (acc x : String)
    (now : Nat) (key : String) (obj : S3Object) (msg : SqsMessage) :
    putsFor (grantedStoredResult st acc now key obj msg) x =
      putsFor st x + (if obj.accession_no = x then 1 else 0) := by
  by_cases h : obj.accession_no = x <;>
    simp [putsFor, grantedStoredResult, List.filter_append, h]

theorem msgsFor_grantedStoredResult (st : CycleState) (acc x : String)
    (now : Nat) (key : String) (obj : S3Object) (msg : SqsMessage) :
    msgsFor (grantedStoredResult st acc now key obj msg) x =
      msgsFor st x + (if msg.MessageBody.accession_no = x then 1 else 0) := by
  by_cases h : msg.MessageBody.accession_no = x <;>
    simp [msgsFor, grantedStoredResult, List.filter_append, h]

theorem grantedFor_grantedStoredResult (st : CycleState) (acc x : String)
    (now : Nat) (key : String) (obj : S3Object) (msg : SqsMessage) :
    grantedFor (grantedStoredResult st acc now key obj msg) x =
      grantedFor st x + (if acc = x then 1 else 0) := by
  by_cases h : acc = x <;>
    simp [grantedFor, grantedStoredResult, List.filter_append, h]

theorem claimsFor_grantedStoredResult (st : CycleState) (acc x : String)
    (now : Nat) (key : String) (obj : S3Object) (msg : SqsMessage) :
    claimsFor (grantedStoredResult st acc now key obj msg) x =
      claimsFor st x + (if acc = x then 1 else 0) := by
  by_cases h : acc = x <;>
    simp [claimsFor, grantedStoredResult, List.filter_append, h]

theorem ledgerHas_grantedStoredResult (st : CycleState) (acc x : String)
    (now : Nat) (key : String) (obj : S3Object) (msg : SqsMessage) :
    ledgerHas (grantedStoredResult st acc now key obj msg).ledger x =
      (ledgerHas st.ledger x || (acc == x)) := by
  simp [ledgerHas, grantedStoredResult, List.any_append]

/-- A denied claim preserves the invariant. -/
theorem Inv_deniedResult (b : Bool) (x : String) (st : CycleState)
    (acc : String) (hl : ledgerHas st.ledger acc = true)
    (h : Inv b x st) : Inv b x (deniedResult st acc) := by
  obtain ⟨h1, h2, h3, h4, h5, h6, h7⟩ := h
  refine ⟨h1, h2, ?_, ?_, ?_, ?_, ?_⟩
  · rw [grantedFor_deniedResult]; exact h3
  · rw [ledgerHas_deniedResult, grantedFor_deniedResult,
      putsFor_deniedResult, msgsFor_deniedResult]
    exact h4
  · rw [grantedFor_deniedResult, claimsFor_deniedResult]
    exact le_trans h5 (Nat.le_add_right _ _)
  · rw [ledgerHas_deniedResult, grantedFor_deniedResult]
    exact h6
  · intro hb hc
    rw [grantedFor_deniedResult]
    rw [claimsFor_deniedResult] at hc
    by_cases hax : acc = x
    · subst hax
      rcases h6.mp hl with hb' | hg
      · rw [hb] at hb'; cases hb'
      · exact hg
    · rw [if_neg hax, Nat.add_zero] at hc
      exact h7 hb hc

/-- A granted claim whose later step fails preserves the invariant. -/
theorem Inv_grantedFailedResult (b : Bool) (x : String) (st : CycleState)
    (acc : String) (now : Nat) (hl : ledgerHas st.ledger acc = false)
    (h : Inv b x st) : Inv b x (grantedFailedResult st acc now) := by
  obtain ⟨h1, h2, h3, h4, h5, h6, h7⟩ := h
  by_cases hax : acc = x
  · subst hax
    obtain ⟨p0, m0, g0⟩ := h4 hl
    refine ⟨h1, h2, ?_, ?_, ?_, ?_, ?_⟩
    · rw [grantedFor_grantedFailedResult, g0, if_pos rfl]
    · rw [ledgerHas_grantedFailedResult, hl]
      simp
    · rw [grantedFor_grantedFailedResult, claimsFor_grantedFailedResult,
        g0, if_pos rfl]
      omega
    · rw [ledgerHas_grantedFailedResult, grantedFor_grantedFailedResult,
        g0, if_pos rfl, hl]
      simp
    · intro _ _
      rw [grantedFor_grantedFailedResult, g0, if_pos rfl]
  · refine ⟨h1, h2, ?_, ?_, ?_, ?_, ?_⟩
    · rw [grantedFor_grantedFailedResult, if_neg hax, Nat.add_zero]
      exact h3
    · rw [ledgerHas_grantedFailedResult, grantedFor_grantedFailedResult,
        putsFor_grantedFailedResult, msgsFor_grantedFailedResult,
        if_neg hax, Nat.add_zero]
      intro hh
      simp only [Bool.or_eq_false_iff] at hh
      exact h4 hh.1
    · rw [grantedFor_grantedFailedResult, claimsFor_grantedFailedResult,
        if_neg hax, Nat.add_zero, Nat.add_zero]
      exact h5
    · rw [ledgerHas_grantedFailedResult, grantedFor_grantedFailedResult,
        if_neg hax, Nat.add_zero]
      have : (acc == x) = false := by
        simp [hax]
      rw [this, Bool.or_false]
      exact h6
    · intro hb hc
      rw [grantedFor_grantedFailedResult, if_neg hax, Nat.add_zero]
      rw [claimsFor_grantedFailedResult, if_neg hax, Nat.add_zero] at hc
      exact h7 hb hc

/-- A fully successful entry preserves the invariant. -/
theorem Inv_grantedStoredResult (b : Bool) (x : String) (st : CycleState)
    (acc : String) (now : Nat) (key : String) (obj : S3Object)
    (msg : SqsMessage) (hl : ledgerHas st.ledger acc = false)
    (hobj : obj.accession_no = acc)
    (hmsg : msg.MessageBody.accession_no = acc)
    (h : Inv b x st) : Inv b x (grantedStoredResult st acc now key obj msg) := by
  obtain ⟨h1, h2, h3, h4, h5, h6, h7⟩ := h
  by_cases hax : acc = x
  · subst hax
    obtain ⟨p0, m0, g0⟩ := h4 hl
    refine ⟨?_, ?_, ?_, ?_, ?_, ?_, ?_⟩
    · rw [putsFor_grantedStoredResult, p0, hobj, if_pos rfl]
    · rw [msgsFor_grantedStoredResult, m0, hmsg, if_pos rfl]
    · rw [grantedFor_grantedStoredResult, g0, if_pos rfl]
    · rw [ledgerHas_grantedStoredResult, hl]
      simp
    · rw [grantedFor_grantedStoredResult, claimsFor_grantedStoredResult,
        g0, if_pos rfl]
      omega
    · rw [ledgerHas_grantedStoredResult, grantedFor_grantedStoredResult,
        g0, if_pos rfl, hl]
      simp
    · intro _ _
      rw [grantedFor_grantedStoredResult, g0, if_pos rfl]
  · have hobj' : ¬ obj.accession_no = x := by rw [hobj]; exact hax
    have hmsg' : ¬ msg.MessageBody.accession_no = x := by rw [hmsg]; exact hax
    refine ⟨?_, ?_, ?_, ?_, ?_, ?_, ?_⟩
    · rw [putsFor_grantedStoredResult, if_neg hobj', Nat.add_zero]
      exact h1
    · rw [msgsFor_grantedStoredResult, if_neg hmsg', Nat.add_zero]
      exact h2
    · rw [grantedFor_grantedStoredResult, if_neg hax, Nat.add_zero]
      exact h3
    · rw [ledgerHas_grantedStoredResult, grantedFor_grantedStoredResult,
        putsFor_grantedStoredResult, msgsFor_grantedStoredResult,
        if_neg hax, if_neg hobj', if_neg hmsg', Nat.add_zero, Nat.add_zero,
        Nat.add_zero]
      intro hh
      simp only [Bool.or_eq_false_iff] at hh
      exact h4 hh.1
    · rw [grantedFor_grantedStoredResult, claimsFor_grantedStoredResult,
        if_neg hax, Nat.add_zero, Nat.add_zero]
      exact h5
    · rw [ledgerHas_grantedStoredResult, grantedFor_grantedStoredResult,
        if_neg hax, Nat.add_zero]
      have : (acc == x) = false := by
        simp [hax]
      rw [this, Bool.or_false]
      exact h6
    · intro hb hc
      rw [grantedFor_grantedStoredResult, if_neg hax, Nat.add_zero]
      rw [claimsFor_grantedStoredResult, if_neg hax, Nat.add_zero] at hc
      exact h7 hb hc

/-- One entry of the loop preserves the invariant. -/
theorem Inv_processEntry (o : Oracle) (i : Nat) (e : Entry) (b : Bool)
    (x : String) (st : CycleState) (h : Inv b x st) :
    Inv b x (processEntry o i st e) := by
  by_cases hl : ledgerHas st.ledger (accessionOf e.id) = true
  · rw [processEntry_denied o i st e hl]
    exact Inv_deniedResult b x st (accessionOf e.id) hl h
  · have hlf : ledgerHas st.ledger (accessionOf e.id) = false := by
      simpa using hl
    cases hp : parseFiledAt e.updated with
    | none =>
      have : processEntry o i st e =
          grantedFailedResult st (accessionOf e.id) (o.timeAt i) := by
        simp [processEntry, hlf, hp]
      rw [this]
      exact Inv_grantedFailedResult b x st (accessionOf e.id) (o.timeAt i) hlf h
    | some dt =>
      by_cases hs : o.s3PutOk i = true
      · have : processEntry o i st e =
            grantedStoredResult st (accessionOf e.id) (o.timeAt i)
              (objectKey dt (accessionOf e.id))
              ⟨accessionOf e.id, e.updated, e.link⟩
              ⟨toString i, ⟨accessionOf e.id, o.bucket,
                objectKey dt (accessionOf e.id), e.updated⟩,
               accessionOf e.id, "filings"⟩ := by
          simp [processEntry, hlf, hp, hs]
        rw [this]
        exact Inv_grantedStoredResult b x st (accessionOf e.id) (o.timeAt i)
          _ _ _ hlf rfl rfl h
      · have hs' : o.s3PutOk i = false := by simpa using hs
        have : processEntry o i st e =
            grantedFailedResult st (accessionOf e.id) (o.timeAt i) := by
          simp [processEntry, hlf, hp, hs']
        rw [this]
        exact Inv_grantedFailedResult b x st (accessionOf e.id) (o.timeAt i) hlf h

/-- The whole entry loop preserves the invariant. -/
theorem Inv_runEntries (o : Oracle) (b : Bool) (x : String) :
    ∀ (feed : List Entry) (i : Nat) (st : CycleState),
      Inv b x st → Inv b x (runEntries o i st feed) := by
  intro feed
  induction feed with
  | nil => intro i st h; exact h
  | cons e es ih =>
    intro i st h
    exact ih (i + 1) (processEntry o i st e) (Inv_processEntry o i e b x st h)

/-- C1: on any feed, from any starting ledger and store, the live path
writes at most one FilingRecord and prepares at most one OutboundEvent
for any identifier `x`; this is enforced by the conditional insert
alone: for an identifier not yet in the ledger, the claims issued for
it during the cycle are granted exactly once as soon as there is at
least one (`min 1 claims`), and a denied claim short-circuits the
entry — no store write, no message, only the processed and skipped
counters and the claims log change. -/
theorem C1_dedup_ledger_exactly_once (o : Oracle) (L0 : List DedupeItem)
    (S0 : List (String × S3Object)) (feed : List Entry) (x : String) :
    putsFor (lambda_handler o L0 S0 feed).state x ≤ 1 ∧
    msgsFor (lambda_handler o L0 S0 feed).state x ≤ 1 ∧
    (ledgerHas L0 x = false →
      grantedFor (lambda_handler o L0 S0 feed).state x =
        min 1 (claimsFor (lambda_handler o L0 S0 feed).state x)) ∧
    (∀ (j : Nat) (st : CycleState) (e : Entry),
      ledgerHas st.ledger (accessionOf e.id) = true →
      processEntry o j st e = deniedResult st (accessionOf e.id)) := by
  have hInit : Inv (ledgerHas L0 x) x (initState L0 S0) := by
    refine ⟨Nat.zero_le 1, Nat.zero_le 1, Nat.zero_le 1,
      fun _ => ⟨rfl, rfl, rfl⟩, le_rfl, ?_, ?_⟩
    · constructor
      · exact fun hh => Or.inl hh
      · intro hh
        rcases hh with hh | hh
        · exact hh
        · cases hh
    · intro _ hc
      simp [claimsFor, initState] at hc
  have hFin := Inv_runEntries o (ledgerHas L0 x) x feed 0 (initState L0 S0) hInit
  obtain ⟨h1, h2, h3, _, h5, _, h7⟩ := hFin
  have hstate : (lambda_handler o L0 S0 feed).state =
      runEntries o 0 (initState L0 S0) feed := rfl
  rw [hstate]
  refine ⟨h1, h2, ?_, fun j st e hh => processEntry_denied o j st e hh⟩
  intro hb
  have h7' := h7 hb
  omega

/-- Witness for C1 at a concrete input: the duplicate announcement of
`DUP` yields at most one record, exactly one grant, and the denial
shape at a state already holding `DUP`. -/
theorem C1_dedup_ledger_exactly_once_witness :
    putsFor (lambda_handler oracleC1 [] [] feedC1).state "DUP" ≤ 1 ∧
    grantedFor (lambda_handler oracleC1 [] [] feedC1).state "DUP" =
      min 1 (claimsFor (lambda_handler oracleC1 [] [] feedC1).state "DUP") ∧
    processEntry oracleC1 7 (initState [⟨"DUP", 0, 0⟩] []) entryC1 =
      deniedResult (initState [⟨"DUP", 0, 0⟩] []) "DUP" := by
  have h := C1_dedup_ledger_exactly_once oracleC1 [] [] feedC1 "DUP"
  have hacc : accessionOf entryC1.id = "DUP" := by decide
  refine ⟨h.1, h.2.2.1 (by decide), ?_⟩
  have hd := h.2.2.2 7 (initState [⟨"DUP", 0, 0⟩] []) entryC1
    (by rw [hacc]; decide)
  rw [hacc] at hd
  exact hd

end EDGAR
